import Mathlib

/-!
Verification of the MCA RTC driver (drivers/rtc/rtc-mca.c).

The development shallowly embeds the driver's pure register codec, the
alarm-time adjustment, and the register-transport state machine, and proves
the specified properties about them.  Register addresses, register field
masks, ioctl numbers and the generic kernel calendar conversions
(rtc_tm_to_time64 / rtc_time64_to_tm) live outside the translated source
file; those are modelled from the specification, as documented on each
definition.
-/

/- ### Calendar arithmetic core (modelled from the spec)

The driver's alarm adjustment converts calendar time to a monotonic linear
timestamp and back "to correctly roll over month/day/year boundaries".
The kernel helpers rtc_tm_to_time64 and rtc_time64_to_tm are not part of
the translated source, so they are modelled here: seconds since the
1970-01-01 epoch, proleptic Gregorian calendar. -/

/-- Gregorian leap-year test. -/
def isLeap (y : Nat) : Bool :=
  (y % 4 == 0 && y % 100 != 0) || y % 400 == 0

/-- Number of days of a year. -/
def yearDays (y : Nat) : Nat := if isLeap y then 366 else 365

/-- Number of days of month `m` (1..12); `leap` tells whether the year is a
leap year.  Out-of-range months give 0. -/
def monthLen (leap : Bool) (m : Nat) : Nat :=
  if m = 1 then 31 else if m = 2 then (if leap then 29 else 28)
  else if m = 3 then 31 else if m = 4 then 30 else if m = 5 then 31
  else if m = 6 then 30 else if m = 7 then 31 else if m = 8 then 31
  else if m = 9 then 30 else if m = 10 then 31 else if m = 11 then 30
  else if m = 12 then 31 else 0

/-- Sum of `len` over the `n` indices `i, i+1, ..., i+n-1`. -/
def sumLen (len : Nat → Nat) : Nat → Nat → Nat
  | _, 0 => 0
  | i, n + 1 => len i + sumLen len (i + 1) n

/-- Repeatedly subtract `len i`, `len (i+1)`, ... from `d` while it fits,
returning the final index and remainder.  `fuel` bounds the number of
subtraction steps so the recursion is structural. -/
def chopAux (len : Nat → Nat) : Nat → Nat → Nat → Nat × Nat
  | 0, i, d => (i, d)
  | fuel + 1, i, d => if d < len i then (i, d) else chopAux len fuel (i + 1) (d - len i)

theorem sumLen_add (len : Nat → Nat) (i a b : Nat) :
    sumLen len i (a + b) = sumLen len i a + sumLen len (i + a) b := by
  induction a generalizing i with
  | zero => simp [sumLen]
  | succ a ih =>
      have : a + 1 + b = (a + b) + 1 := by omega
      rw [this]
      show len i + sumLen len (i + 1) (a + b) = (len i + sumLen len (i + 1) a) + _
      rw [ih]
      have : i + 1 + a = i + (a + 1) := by omega
      rw [this]
      omega

theorem sumLen_succ_right (len : Nat → Nat) (i n : Nat) :
    sumLen len i (n + 1) = sumLen len i n + len (i + n) := by
  rw [sumLen_add]
  simp [sumLen]

theorem le_sumLen (len : Nat → Nat) (h : ∀ j, 1 ≤ len j) (i n : Nat) :
    n ≤ sumLen len i n := by
  induction n generalizing i with
  | zero => simp
  | succ n ih =>
      have h1 := h i
      have h2 := ih (i + 1)
      show n + 1 ≤ len i + sumLen len (i + 1) n
      omega

theorem chopAux_of_lt (len : Nat → Nat) (fuel i d : Nat) (h : d < len i) :
    chopAux len fuel i d = (i, d) := by
  cases fuel with
  | zero => rfl
  | succ fuel => simp [chopAux, h]

theorem chop_forward (len : Nat → Nat) (n : Nat) :
    ∀ fuel i r, n ≤ fuel → r < len (i + n) →
      chopAux len fuel i (sumLen len i n + r) = (i + n, r) := by
  induction n with
  | zero =>
      intro fuel i r _ hr
      simp only [sumLen, Nat.zero_add]
      exact chopAux_of_lt len fuel i r (by simpa using hr)
  | succ n ih =>
      intro fuel i r hfuel hr
      obtain ⟨f, rfl⟩ : ∃ f, fuel = f + 1 := ⟨fuel - 1, by omega⟩
      have hstep : i + 1 + n = i + (n + 1) := by omega
      have hr' : r < len (i + 1 + n) := by rw [hstep]; exact hr
      have hrec := ih f (i + 1) r (by omega) hr'
      rw [hstep] at hrec
      have hnotlt : ¬ (len i + sumLen len (i + 1) n + r < len i) := by omega
      have hsub : len i + (sumLen len (i + 1) n + r) - len i = sumLen len (i + 1) n + r := by
        omega
      show chopAux len (f + 1) i (sumLen len i (n + 1) + r) = _
      rw [show sumLen len i (n + 1) = len i + sumLen len (i + 1) n from rfl, Nat.add_assoc]
      show (if len i + (sumLen len (i + 1) n + r) < len i then _ else
        chopAux len f (i + 1) (len i + (sumLen len (i + 1) n + r) - len i)) = _
      rw [if_neg (by omega), hsub, hrec]

theorem chop_backward (len : Nat → Nat) (fuel : Nat) :
    ∀ i d, d < sumLen len i (fuel + 1) →
      ∃ n r, n ≤ fuel ∧ chopAux len fuel i d = (i + n, r) ∧
        sumLen len i n + r = d ∧ r < len (i + n) := by
  induction fuel with
  | zero =>
      intro i d hd
      refine ⟨0, d, Nat.le_refl 0, rfl, by simp [sumLen], ?_⟩
      simpa [sumLen] using hd
  | succ fuel ih =>
      intro i d hd
      by_cases hlt : d < len i
      · exact ⟨0, d, by omega, chopAux_of_lt _ _ _ _ hlt, by simp [sumLen], by simpa using hlt⟩
      · have hd' : d - len i < sumLen len (i + 1) (fuel + 1) := by
          have : sumLen len i (fuel + 1 + 1) = len i + sumLen len (i + 1) (fuel + 1) := rfl
          omega
        obtain ⟨n, r, hn, hchop, hsum, hr⟩ := ih (i + 1) (d - len i) hd'
        refine ⟨n + 1, r, by omega, ?_, ?_, ?_⟩
        · show chopAux len (fuel + 1) i d = _
          simp only [chopAux, if_neg hlt]
          rw [hchop]
          have : i + 1 + n = i + (n + 1) := by omega
          rw [this]
        · have : sumLen len i (n + 1) = len i + sumLen len (i + 1) n := rfl
          omega
        · have : i + 1 + n = i + (n + 1) := by omega
          rw [← this]
          exact hr

theorem yearDays_ge (y : Nat) : 365 ≤ yearDays y := by
  unfold yearDays; split <;> omega

theorem sumLen_monthLen_twelve (leap : Bool) :
    sumLen (monthLen leap) 1 12 = (if leap then 366 else 365) := by
  cases leap <;> rfl

theorem monthLen_pos (leap : Bool) (m : Nat) (h1 : 1 ≤ m) (h2 : m ≤ 12) :
    1 ≤ monthLen leap m := by
  cases leap <;> interval_cases m <;> decide

theorem sumLen_mono (len : Nat → Nat) (i : Nat) {a b : Nat} (h : a ≤ b) :
    sumLen len i a ≤ sumLen len i b := by
  obtain ⟨c, rfl⟩ := Nat.le.dest h
  rw [sumLen_add]
  omega

/-- Days since 1970-01-01 to year/month/day-of-month (month 1..12, day-of-month
returned 1-based). -/
def civilFromDays (D : Nat) : Nat × Nat × Nat :=
  match chopAux yearDays D 1970 D with
  | (y, doy) =>
    match chopAux (monthLen (isLeap y)) 11 1 doy with
    | (m, dom) => (y, m, dom + 1)

/-- Year/month/day (month 1..12, day 1-based) to days since 1970-01-01. -/
def daysFromCivil (y m d : Nat) : Nat :=
  sumLen yearDays 1970 (y - 1970) + sumLen (monthLen (isLeap y)) 1 (m - 1) + (d - 1)

theorem daysFromCivil_civilFromDays (D : Nat) :
    (fun p => daysFromCivil p.1 p.2.1 p.2.2) (civilFromDays D) = D := by
  have hyd : ∀ j, 1 ≤ yearDays j := fun j => by have := yearDays_ge j; omega
  have hD : D < sumLen yearDays 1970 (D + 1) := by
    have := le_sumLen yearDays hyd 1970 (D + 1)
    omega
  obtain ⟨n, r, hn, hchop, hsum, hr⟩ := chop_backward yearDays D 1970 D hD
  have hr12 : r < sumLen (monthLen (isLeap (1970 + n))) 1 (11 + 1) := by
    rw [(by norm_num : (11 : Nat) + 1 = 12), sumLen_monthLen_twelve]
    have hy : yearDays (1970 + n) = if isLeap (1970 + n) then 366 else 365 := rfl
    omega
  obtain ⟨k, q, hk, hchop2, hsum2, hq⟩ :=
    chop_backward (monthLen (isLeap (1970 + n))) 11 1 r hr12
  unfold civilFromDays
  rw [hchop]
  dsimp only
  rw [hchop2]
  dsimp only
  unfold daysFromCivil
  rw [(by omega : 1970 + n - 1970 = n), (by omega : 1 + k - 1 = k),
    (by omega : q + 1 - 1 = q)]
  omega

theorem civilFromDays_daysFromCivil (y m d : Nat)
    (hy : 1970 ≤ y) (hm1 : 1 ≤ m) (hm2 : m ≤ 12)
    (hd1 : 1 ≤ d) (hd2 : d ≤ monthLen (isLeap y) m) :
    civilFromDays (daysFromCivil y m d) = (y, m, d) := by
  have hyd : ∀ j, 1 ≤ yearDays j := fun j => by have := yearDays_ge j; omega
  have hstep : sumLen (monthLen (isLeap y)) 1 ((m - 1) + 1) =
      sumLen (monthLen (isLeap y)) 1 (m - 1) + monthLen (isLeap y) m := by
    have h := sumLen_succ_right (monthLen (isLeap y)) 1 (m - 1)
    rw [(by omega : 1 + (m - 1) = m)] at h
    exact h
  have hmono := sumLen_mono (monthLen (isLeap y)) 1 (show (m - 1) + 1 ≤ 12 by omega)
  have h12v : sumLen (monthLen (isLeap y)) 1 12 = yearDays y := by
    rw [sumLen_monthLen_twelve]
    rfl
  have hdoy : sumLen (monthLen (isLeap y)) 1 (m - 1) + (d - 1) < yearDays y := by
    omega
  have hDeq : daysFromCivil y m d =
      sumLen yearDays 1970 (y - 1970) + (sumLen (monthLen (isLeap y)) 1 (m - 1) + (d - 1)) := by
    unfold daysFromCivil
    omega
  have hcount : y - 1970 ≤ daysFromCivil y m d := by
    have h1 := le_sumLen yearDays hyd 1970 (y - 1970)
    omega
  have hfwd := chop_forward yearDays (y - 1970) (daysFromCivil y m d)
    1970 (sumLen (monthLen (isLeap y)) 1 (m - 1) + (d - 1)) hcount
    (by rw [(by omega : 1970 + (y - 1970) = y)]; exact hdoy)
  rw [(by omega : 1970 + (y - 1970) = y), ← hDeq] at hfwd
  have hfwd2 := chop_forward (monthLen (isLeap y)) (m - 1) 11 1 (d - 1) (by omega)
    (by rw [(by omega : 1 + (m - 1) = m)]; omega)
  rw [(by omega : 1 + (m - 1) = m)] at hfwd2
  unfold civilFromDays
  rw [hfwd]
  dsimp only
  rw [hfwd2]
  dsimp only
  rw [(by omega : d - 1 + 1 = d)]

/- ### Host calendar-time structure and the linear-timestamp conversions -/

/-- The six calendar fields of the host's calendar-time structure used by the
driver (struct rtc_time): year since 1900, month 0..11, day of month 1..31,
hour, minute, second.  Fields are C ints, embedded as integers. -/
structure rtc_time where
  tm_sec : Int
  tm_min : Int
  tm_hour : Int
  tm_mday : Int
  tm_mon : Int
  tm_year : Int
deriving DecidableEq

/-- Modelled from the spec: the kernel's rtc_time64_to_tm (not part of the
translated source) converts a monotonic linear timestamp (seconds since the
1970-01-01 epoch) back to calendar fields, correctly rolling over
month/day/year boundaries. -/
def rtc_time64_to_tm (s : Nat) : rtc_time :=
  match civilFromDays (s / 86400) with
  | (y, m, d) =>
    { tm_year := (y : Int) - 1900
      tm_mon := (m : Int) - 1
      tm_mday := (d : Int)
      tm_hour := ((s % 86400) / 3600 : Nat)
      tm_min := ((s % 86400 % 3600) / 60 : Nat)
      tm_sec := ((s % 86400 % 60 : Nat) : Int) }

/-- Modelled from the spec: the kernel's rtc_tm_to_time64 (not part of the
translated source) converts calendar fields to the monotonic linear
timestamp, seconds since the 1970-01-01 epoch. -/
def rtc_tm_to_time64 (t : rtc_time) : Nat :=
  daysFromCivil (t.tm_year + 1900).toNat (t.tm_mon + 1).toNat t.tm_mday.toNat * 86400 +
    t.tm_hour.toNat * 3600 + t.tm_min.toNat * 60 + t.tm_sec.toNat

/-- Calendar validity of an rtc_time, restricted to the epoch-representable
range of the modelled conversions (year at least 1970). -/
def RtcTimeValid (t : rtc_time) : Prop :=
  70 ≤ t.tm_year ∧ 0 ≤ t.tm_mon ∧ t.tm_mon ≤ 11 ∧ 1 ≤ t.tm_mday ∧
  t.tm_mday ≤ (monthLen (isLeap (t.tm_year + 1900).toNat) (t.tm_mon + 1).toNat : Int) ∧
  0 ≤ t.tm_hour ∧ t.tm_hour ≤ 23 ∧ 0 ≤ t.tm_min ∧ t.tm_min ≤ 59 ∧
  0 ≤ t.tm_sec ∧ t.tm_sec ≤ 59

instance (t : rtc_time) : Decidable (RtcTimeValid t) := by
  unfold RtcTimeValid
  infer_instance

theorem rtc_tm_to_time64_rtc_time64_to_tm (s : Nat) :
    rtc_tm_to_time64 (rtc_time64_to_tm s) = s := by
  have hD := daysFromCivil_civilFromDays (s / 86400)
  rcases hcd : civilFromDays (s / 86400) with ⟨y, m, d⟩
  rw [hcd] at hD
  dsimp only at hD
  unfold rtc_time64_to_tm
  rw [hcd]
  dsimp only
  unfold rtc_tm_to_time64
  dsimp only
  have hy : ((y : Int) - 1900 + 1900).toNat = y := by omega
  have hm : ((m : Int) - 1 + 1).toNat = m := by omega
  have hdd : ((d : Int)).toNat = d := by omega
  have hh : (((s % 86400 / 3600 : Nat) : Int)).toNat = s % 86400 / 3600 := by omega
  have hmi : (((s % 86400 % 3600 / 60 : Nat) : Int)).toNat = s % 86400 % 3600 / 60 := by
    omega
  have hs : (((s % 86400 % 60 : Nat) : Int)).toNat = s % 86400 % 60 := by omega
  rw [hy, hm, hdd, hh, hmi, hs, hD]
  have e1 := Nat.div_add_mod s 86400
  have e2 := Nat.div_add_mod (s % 86400) 3600
  have e3 := Nat.div_add_mod (s % 86400 % 3600) 60
  have e4 : s % 86400 % 3600 % 60 = s % 86400 % 60 :=
    Nat.mod_mod_of_dvd (s % 86400) (by norm_num)
  omega

theorem rtc_time64_to_tm_rtc_tm_to_time64 (t : rtc_time) (hv : RtcTimeValid t) :
    rtc_time64_to_tm (rtc_tm_to_time64 t) = t := by
  obtain ⟨h70, hm0, hm11, hd1, hd2, hh0, hh23, hmin0, hmin59, hs0, hs59⟩ := hv
  obtain ⟨Y, hY⟩ := Int.eq_ofNat_of_zero_le (show (0 : Int) ≤ t.tm_year + 1900 by omega)
  obtain ⟨M, hM⟩ := Int.eq_ofNat_of_zero_le (show (0 : Int) ≤ t.tm_mon + 1 by omega)
  obtain ⟨Dd, hDd⟩ := Int.eq_ofNat_of_zero_le (show (0 : Int) ≤ t.tm_mday by omega)
  obtain ⟨H, hH⟩ := Int.eq_ofNat_of_zero_le (show (0 : Int) ≤ t.tm_hour by omega)
  obtain ⟨Mi, hMi⟩ := Int.eq_ofNat_of_zero_le (show (0 : Int) ≤ t.tm_min by omega)
  obtain ⟨S, hS⟩ := Int.eq_ofNat_of_zero_le (show (0 : Int) ≤ t.tm_sec by omega)
  have htY : (t.tm_year + 1900).toNat = Y := by omega
  have htM : (t.tm_mon + 1).toNat = M := by omega
  have htD : t.tm_mday.toNat = Dd := by omega
  have htH : t.tm_hour.toNat = H := by omega
  have htMi : t.tm_min.toNat = Mi := by omega
  have htS : t.tm_sec.toNat = S := by omega
  have hY1970 : 1970 ≤ Y := by omega
  have hM1 : 1 ≤ M := by omega
  have hM12 : M ≤ 12 := by omega
  have hDd1 : 1 ≤ Dd := by omega
  have hDd2 : Dd ≤ monthLen (isLeap Y) M := by
    rw [htY, htM] at hd2
    omega
  have hH23 : H ≤ 23 := by omega
  have hMi59 : Mi ≤ 59 := by omega
  have hS59 : S ≤ 59 := by omega
  have hto : rtc_tm_to_time64 t =
      86400 * daysFromCivil Y M Dd + (H * 3600 + Mi * 60 + S) := by
    unfold rtc_tm_to_time64
    rw [htY, htM, htD, htH, htMi, htS]
    ring
  have hT : H * 3600 + Mi * 60 + S < 86400 := by omega
  have hdiv : rtc_tm_to_time64 t / 86400 = daysFromCivil Y M Dd := by
    rw [hto, Nat.mul_add_div (by norm_num), Nat.div_eq_of_lt hT]
    omega
  have hmod : rtc_tm_to_time64 t % 86400 = H * 3600 + Mi * 60 + S := by
    rw [hto, Nat.mul_add_mod, Nat.mod_eq_of_lt hT]
  have hTeq : H * 3600 + Mi * 60 + S = 3600 * H + (Mi * 60 + S) := by ring
  have hT2 : Mi * 60 + S < 3600 := by omega
  have hdivH : (H * 3600 + Mi * 60 + S) / 3600 = H := by
    rw [hTeq, Nat.mul_add_div (by norm_num), Nat.div_eq_of_lt hT2]
    omega
  have hmod3600 : (H * 3600 + Mi * 60 + S) % 3600 = Mi * 60 + S := by
    rw [hTeq, Nat.mul_add_mod, Nat.mod_eq_of_lt hT2]
  have hdivMi : (Mi * 60 + S) / 60 = Mi := by
    rw [(by ring : Mi * 60 + S = 60 * Mi + S), Nat.mul_add_div (by norm_num),
      Nat.div_eq_of_lt (by omega : S < 60)]
    omega
  have hmod60 : (H * 3600 + Mi * 60 + S) % 60 = S := by
    rw [(by ring : H * 3600 + Mi * 60 + S = 60 * (H * 60 + Mi) + S), Nat.mul_add_mod,
      Nat.mod_eq_of_lt (by omega : S < 60)]
  have hcd : civilFromDays (daysFromCivil Y M Dd) = (Y, M, Dd) :=
    civilFromDays_daysFromCivil Y M Dd hY1970 hM1 hM12 hDd1 hDd2
  unfold rtc_time64_to_tm
  rw [hdiv, hmod, hcd]
  dsimp only
  rw [hdivH, hmod3600, hdivMi, hmod60]
  obtain ⟨tsec, tmin, thour, tmday, tmon, tyear⟩ := t
  dsimp only at hY hM hDd hH hMi hS ⊢
  simp only [rtc_time.mk.injEq]
  refine ⟨?_, ?_, ?_, ?_, ?_, ?_⟩ <;> omega

/- ### Alarm time adjustment (from mca_rtc_adjust_alarm_time) -/

/-- The alarm adjustment of the driver: convert the calendar time to a linear
timestamp held in a 64-bit unsigned variable, add or subtract one second
(with unsigned wrap-around), and convert back. -/
def mca_rtc_adjust_alarm_time (t : rtc_time) (inc : Bool) : rtc_time :=
  let time := rtc_tm_to_time64 t % 2 ^ 64
  rtc_time64_to_tm ((if inc then time + 1 else time + (2 ^ 64 - 1)) % 2 ^ 64)

theorem adjust_alarm_time_roundtrip (t : rtc_time) (hv : RtcTimeValid t)
    (h1 : 1 ≤ rtc_tm_to_time64 t) (h2 : rtc_tm_to_time64 t < 2 ^ 64) :
    mca_rtc_adjust_alarm_time (mca_rtc_adjust_alarm_time t false) true = t := by
  have hpow : (2 : Nat) ^ 64 = 18446744073709551616 := by norm_num
  have hdec : (rtc_tm_to_time64 t % 2 ^ 64 + (2 ^ 64 - 1)) % 2 ^ 64 =
      rtc_tm_to_time64 t - 1 := by
    rw [hpow]
    omega
  have hA := rtc_tm_to_time64_rtc_time64_to_tm (rtc_tm_to_time64 t - 1)
  show mca_rtc_adjust_alarm_time
    (rtc_time64_to_tm ((rtc_tm_to_time64 t % 2 ^ 64 + (2 ^ 64 - 1)) % 2 ^ 64)) true = t
  rw [hdec]
  show rtc_time64_to_tm
    ((rtc_tm_to_time64 (rtc_time64_to_tm (rtc_tm_to_time64 t - 1)) % 2 ^ 64 + 1) % 2 ^ 64) = t
  rw [hA]
  have hinc : (((rtc_tm_to_time64 t - 1) % 2 ^ 64 + 1) % 2 ^ 64) = rtc_tm_to_time64 t := by
    rw [hpow]
    omega
  rw [hinc]
  exact rtc_time64_to_tm_rtc_tm_to_time64 t hv

/- ### Register codec (mca_data_to_tm / mca_tm_to_data) -/

/-- Modelled from the spec: field mask of the year-low register byte, from the
missing mca-common registers header.  The year occupies a full 16-bit field
split over two bytes. -/
def MCA_RTC_YEAR_L_MASK : Nat := 255

/-- Modelled from the spec: field mask of the year-high register byte. -/
def MCA_RTC_YEAR_H_MASK : Nat := 255

/-- Modelled from the spec: field mask of the month byte (month 1..12 needs
4 bits; the remaining bits of the byte may hold foreign flags). -/
def MCA_RTC_MONTH_MASK : Nat := 15

/-- Modelled from the spec: field mask of the day byte (day 1..31, 5 bits). -/
def MCA_RTC_DAY_MASK : Nat := 31

/-- Modelled from the spec: field mask of the hour byte (hour 0..23, 5 bits). -/
def MCA_RTC_HOUR_MASK : Nat := 31

/-- Modelled from the spec: field mask of the minute byte (0..59, 6 bits). -/
def MCA_RTC_MIN_MASK : Nat := 63

/-- Modelled from the spec: field mask of the second byte (0..59, 6 bits). -/
def MCA_RTC_SEC_MASK : Nat := 63

/-- The 7-byte register block, in register order: year-low, year-high, month,
day, hour, minute, second (indices DATA_YEAR_L .. DATA_SEC of the source). -/
structure RtcData where
  yearL : Nat
  yearH : Nat
  month : Nat
  day : Nat
  hour : Nat
  min : Nat
  sec : Nat
deriving DecidableEq

/-- All-zero register block, as used by the zero-initialized buffers of the
driver. -/
def zeroData : RtcData := ⟨0, 0, 0, 0, 0, 0, 0⟩

/-- Decode a register block into calendar fields (mca_data_to_tm): mask each
byte and apply the year-1900 / month-1 host-convention offsets. -/
def mca_data_to_tm (data : RtcData) : rtc_time :=
  { tm_year := Int.ofNat (((data.yearH &&& MCA_RTC_YEAR_H_MASK) <<< 8) |||
      (data.yearL &&& MCA_RTC_YEAR_L_MASK)) - 1900
    tm_mon := Int.ofNat (data.month &&& MCA_RTC_MONTH_MASK) - 1
    tm_mday := Int.ofNat (data.day &&& MCA_RTC_DAY_MASK)
    tm_hour := Int.ofNat (data.hour &&& MCA_RTC_HOUR_MASK)
    tm_min := Int.ofNat (data.min &&& MCA_RTC_MIN_MASK)
    tm_sec := Int.ofNat (data.sec &&& MCA_RTC_SEC_MASK) }

/-- Clearing the mask bits of a byte: the C idiom data &= (u8)~MASK.  The
complement is taken within the 8-bit register width. -/
def maskOut (b m : Nat) : Nat := b &&& (255 ^^^ m)

/-- The new masked field value: the C idiom (int_expr) & MASK, an `int`
bitwise-and (two's complement) whose nonnegative result is stored in the
byte. -/
def maskedVal (x : Int) (m : Nat) : Nat := (Int.land x (Int.ofNat m)).toNat

/-- Encode calendar fields into a register block (mca_tm_to_data): for each
field clear exactly the mask bits of the target byte and OR in the new
masked value, applying the year+1900 / month+1 offsets. -/
def mca_tm_to_data (t : rtc_time) (data : RtcData) : RtcData :=
  { yearL := maskOut data.yearL MCA_RTC_YEAR_L_MASK |||
      maskedVal (t.tm_year + 1900) MCA_RTC_YEAR_L_MASK
    yearH := maskOut data.yearH MCA_RTC_YEAR_H_MASK |||
      maskedVal (Int.shiftRight (t.tm_year + 1900) 8) MCA_RTC_YEAR_H_MASK
    month := maskOut data.month MCA_RTC_MONTH_MASK |||
      maskedVal (t.tm_mon + 1) MCA_RTC_MONTH_MASK
    day := maskOut data.day MCA_RTC_DAY_MASK ||| maskedVal t.tm_mday MCA_RTC_DAY_MASK
    hour := maskOut data.hour MCA_RTC_HOUR_MASK ||| maskedVal t.tm_hour MCA_RTC_HOUR_MASK
    min := maskOut data.min MCA_RTC_MIN_MASK ||| maskedVal t.tm_min MCA_RTC_MIN_MASK
    sec := maskOut data.sec MCA_RTC_SEC_MASK ||| maskedVal t.tm_sec MCA_RTC_SEC_MASK }

theorem and_two_pow_sub_one_eq_mod (x k : Nat) : x &&& (2 ^ k - 1) = x % 2 ^ k := by
  apply Nat.eq_of_testBit_eq
  intro i
  rw [Nat.testBit_and, Nat.testBit_two_pow_sub_one, Nat.testBit_mod_two_pow]
  exact Bool.and_comm _ _

theorem maskedVal_small (x : Int) (k : Nat) (h0 : 0 ≤ x) (h1 : x < (2 : Int) ^ k) :
    maskedVal x (2 ^ k - 1) = x.toNat := by
  obtain ⟨a, rfl⟩ := Int.eq_ofNat_of_zero_le h0
  have ha : a < 2 ^ k := by exact_mod_cast h1
  show ((Int.ofNat a).land (Int.ofNat (2 ^ k - 1))).toNat = _
  rw [show (Int.ofNat a).land (Int.ofNat (2 ^ k - 1)) = Int.ofNat (a &&& (2 ^ k - 1)) from rfl]
  rw [and_two_pow_sub_one_eq_mod]
  simp [Nat.mod_eq_of_lt ha]

/-- The hardware-representable range of calendar fields: year fits the 16-bit
year field, month 1..12 (host convention 0..11), day 1..31, hour 0..23,
minute and second 0..59. -/
def HwEncodable (t : rtc_time) : Prop :=
  0 ≤ t.tm_year + 1900 ∧ t.tm_year + 1900 < 65536 ∧ 0 ≤ t.tm_mon ∧ t.tm_mon ≤ 11 ∧
  1 ≤ t.tm_mday ∧ t.tm_mday ≤ 31 ∧ 0 ≤ t.tm_hour ∧ t.tm_hour ≤ 23 ∧
  0 ≤ t.tm_min ∧ t.tm_min ≤ 59 ∧ 0 ≤ t.tm_sec ∧ t.tm_sec ≤ 59

instance (t : rtc_time) : Decidable (HwEncodable t) := by
  unfold HwEncodable
  infer_instance

theorem maskedVal_mod (x : Int) (k : Nat) (h0 : 0 ≤ x) :
    maskedVal x (2 ^ k - 1) = x.toNat % 2 ^ k := by
  obtain ⟨a, rfl⟩ := Int.eq_ofNat_of_zero_le h0
  show ((Int.ofNat a).land (Int.ofNat (2 ^ k - 1))).toNat = _
  rw [show (Int.ofNat a).land (Int.ofNat (2 ^ k - 1)) = Int.ofNat (a &&& (2 ^ k - 1)) from rfl]
  rw [and_two_pow_sub_one_eq_mod]
  rfl

theorem field_roundtrip (x : Int) (k : Nat) (h0 : 0 ≤ x) (h1 : x < (2 : Int) ^ k) :
    Int.ofNat ((maskOut 0 (2 ^ k - 1) ||| maskedVal x (2 ^ k - 1)) &&& (2 ^ k - 1)) = x := by
  have h1' : x < ((2 ^ k : Nat) : Int) := by exact_mod_cast h1
  have hxk : x.toNat < 2 ^ k := by omega
  have hm : maskOut 0 (2 ^ k - 1) = 0 := Nat.zero_and _
  rw [hm, Nat.zero_or, maskedVal_mod x k h0, Nat.mod_eq_of_lt hxk,
    and_two_pow_sub_one_eq_mod, Nat.mod_eq_of_lt hxk]
  exact Int.toNat_of_nonneg h0

theorem shift_or_mod (a : Nat) : ((a >>> 8) <<< 8) ||| (a % 2 ^ 8) = a := by
  apply Nat.eq_of_testBit_eq
  intro i
  rw [Nat.testBit_or, Nat.testBit_shiftLeft, Nat.testBit_mod_two_pow]
  by_cases h8 : 8 ≤ i
  · rw [Nat.testBit_shiftRight, (by omega : 8 + (i - 8) = i)]
    have hd1 : decide (i ≥ 8) = true := by simpa using h8
    have hd2 : decide (i < 8) = false := by simpa using h8
    rw [hd1, hd2]
    simp
  · have hd1 : decide (i ≥ 8) = false := by simpa using h8
    have hd2 : decide (i < 8) = true := by simpa using (show i < 8 by omega)
    rw [hd1, hd2]
    simp

theorem year_field_roundtrip (x : Int) (h0 : 0 ≤ x) (h1 : x < 65536) :
    Int.ofNat
      ((((maskOut 0 MCA_RTC_YEAR_H_MASK ||| maskedVal (Int.shiftRight x 8) MCA_RTC_YEAR_H_MASK)
          &&& MCA_RTC_YEAR_H_MASK) <<< 8) |||
        ((maskOut 0 MCA_RTC_YEAR_L_MASK ||| maskedVal x MCA_RTC_YEAR_L_MASK)
          &&& MCA_RTC_YEAR_L_MASK)) = x := by
  obtain ⟨a, rfl⟩ := Int.eq_ofNat_of_zero_le h0
  have ha : a < 65536 := by exact_mod_cast h1
  have hmask : MCA_RTC_YEAR_L_MASK = 2 ^ 8 - 1 := rfl
  have hmaskH : MCA_RTC_YEAR_H_MASK = 2 ^ 8 - 1 := rfl
  have hshift : Int.shiftRight ((a : Nat) : Int) 8 = ((a >>> 8 : Nat) : Int) := rfl
  have hzero : ∀ m : Nat, maskOut 0 m = 0 := fun m => Nat.zero_and _
  have hhi : a >>> 8 < 2 ^ 8 := by
    rw [Nat.shiftRight_eq_div_pow]
    omega
  rw [hmask, hmaskH, hshift, hzero, Nat.zero_or]
  rw [maskedVal_mod _ 8 (by positivity), maskedVal_mod _ 8 (by positivity)]
  rw [Int.toNat_natCast, Int.toNat_natCast, Nat.mod_eq_of_lt hhi]
  rw [and_two_pow_sub_one_eq_mod, and_two_pow_sub_one_eq_mod, Nat.mod_eq_of_lt hhi,
    Nat.zero_or, Nat.mod_mod_of_dvd a (dvd_refl _), shift_or_mod]
  exact rfl

theorem mca_decode_encode (t : rtc_time) (h : HwEncodable t) :
    mca_data_to_tm (mca_tm_to_data t zeroData) = t := by
  obtain ⟨hy0, hy1, hm0, hm1, hd0, hd1, hh0, hh1, hmi0, hmi1, hs0, hs1⟩ := h
  have hyear := year_field_roundtrip (t.tm_year + 1900) hy0 hy1
  have hmon := field_roundtrip (t.tm_mon + 1) 4 (by omega)
    (by have h16 : (2 : Int) ^ 4 = 16 := by norm_num
        omega)
  have hday := field_roundtrip t.tm_mday 5 (by omega)
    (by have h32 : (2 : Int) ^ 5 = 32 := by norm_num
        omega)
  have hhour := field_roundtrip t.tm_hour 5 (by omega)
    (by have h32 : (2 : Int) ^ 5 = 32 := by norm_num
        omega)
  have hmin := field_roundtrip t.tm_min 6 (by omega)
    (by have h64 : (2 : Int) ^ 6 = 64 := by norm_num
        omega)
  have hsec := field_roundtrip t.tm_sec 6 (by omega)
    (by have h64 : (2 : Int) ^ 6 = 64 := by norm_num
        omega)
  unfold mca_data_to_tm mca_tm_to_data zeroData
  dsimp only
  rw [show MCA_RTC_MONTH_MASK = 2 ^ 4 - 1 from rfl,
    show MCA_RTC_DAY_MASK = 2 ^ 5 - 1 from rfl,
    show MCA_RTC_HOUR_MASK = 2 ^ 5 - 1 from rfl,
    show MCA_RTC_MIN_MASK = 2 ^ 6 - 1 from rfl,
    show MCA_RTC_SEC_MASK = 2 ^ 6 - 1 from rfl]
  obtain ⟨tsec, tmin, thour, tmday, tmon, tyear⟩ := t
  dsimp only at hyear hmon hday hhour hmin hsec ⊢
  simp only [rtc_time.mk.injEq]
  refine ⟨?_, ?_, ?_, ?_, ?_, ?_⟩
  · rw [hsec]
  · rw [hmin]
  · rw [hhour]
  · rw [hday]
  · rw [hmon]
    omega
  · rw [hyear]
    omega

theorem testBit_maskedVal_false (x : Int) (m i : Nat) (h : m.testBit i = false) :
    (maskedVal x m).testBit i = false := by
  cases x with
  | ofNat a =>
      show ((Int.ofNat a).land (Int.ofNat m)).toNat.testBit i = false
      rw [show (Int.ofNat a).land (Int.ofNat m) = Int.ofNat (a &&& m) from rfl]
      show (a &&& m).testBit i = false
      rw [Nat.testBit_and, h, Bool.and_false]
  | negSucc a =>
      show ((Int.negSucc a).land (Int.ofNat m)).toNat.testBit i = false
      rw [show (Int.negSucc a).land (Int.ofNat m) = Int.ofNat (Nat.ldiff m a) from rfl]
      show (Nat.ldiff m a).testBit i = false
      rw [Nat.testBit_ldiff, h, Bool.false_and]

theorem maskedByte_frame (b w m : Nat) (hb : b < 256) (i : Nat)
    (hm : m.testBit i = false) (hw : w.testBit i = false) :
    (maskOut b m ||| w).testBit i = b.testBit i := by
  unfold maskOut
  rw [Nat.testBit_or, Nat.testBit_and, Nat.testBit_xor, hm, hw, Bool.or_false]
  by_cases h8 : i < 8
  · have h255 : (255 : Nat).testBit i = true := by
      rw [show (255 : Nat) = 2 ^ 8 - 1 from rfl, Nat.testBit_two_pow_sub_one]
      simpa using h8
    rw [h255]
    simp
  · have hpow : (256 : Nat) ≤ 2 ^ i := by
      calc (256 : Nat) = 2 ^ 8 := rfl
      _ ≤ 2 ^ i := Nat.pow_le_pow_right (by norm_num) (by omega)
    have hbb : b.testBit i = false := Nat.testBit_lt_two_pow (by omega)
    have h255 : (255 : Nat).testBit i = false := by
      rw [show (255 : Nat) = 2 ^ 8 - 1 from rfl, Nat.testBit_two_pow_sub_one]
      simpa using h8
    rw [h255, hbb]
    simp

/- ### Register transport and driver state machine -/

/-- Modelled from the spec: register addresses of the RTC register map, from
the missing mca-common registers header.  Concrete values are arbitrary but
distinct; the clock and alarm blocks are 7 consecutive bytes each
(CLOCK_DATA_LEN = ALARM_DATA_LEN = 7). -/
def MCA_RTC_CONTROL : Nat := 0

/-- Modelled from the spec: first byte of the current-time register block. -/
def MCA_RTC_COUNT_YEAR_L : Nat := 1

/-- Modelled from the spec: last byte of the current-time register block. -/
def MCA_RTC_COUNT_SEC : Nat := 7

/-- Modelled from the spec: first byte of the alarm register block. -/
def MCA_RTC_ALARM_YEAR_L : Nat := 8

/-- Modelled from the spec: last byte of the alarm register block. -/
def MCA_RTC_ALARM_SEC : Nat := 14

/-- Modelled from the spec: prepare register of the time acquisition
handshake. -/
def MCA_RTC_PREPARE_DATETIME : Nat := 15

/-- Modelled from the spec: prepare register of the alarm acquisition
handshake. -/
def MCA_RTC_PREPARE_ALARM : Nat := 16

/-- Modelled from the spec: interrupt status register holding the alarm
pending bit. -/
def MCA_IRQ_STATUS_0 : Nat := 17

/-- Modelled from the spec: tick-count register of the periodic interrupt
(16 bits, two bytes). -/
def MCA_RTC_PERIODIC_IRQ_FREQ : Nat := 18

/-- Modelled from the spec: irq pin selector register. -/
def MCA_RTC_IRQ_PIN : Nat := 20

/-- Modelled from the spec: RTC enable bit of the control register. -/
def MCA_RTC_EN : Nat := 1

/-- Modelled from the spec: alarm enable bit of the control register. -/
def MCA_RTC_ALARM_EN : Nat := 2

/-- Modelled from the spec: 1 Hz update-interrupt enable bit of the control
register. -/
def MCA_RTC_1HZ_EN : Nat := 4

/-- Modelled from the spec: periodic-interrupt enable bit of the control
register. -/
def MCA_RTC_PERIODIC_EN : Nat := 8

/-- Modelled from the spec: irq pin enable bit of the control register. -/
def MCA_RTC_IRQ_PIN_EN : Nat := 16

/-- Modelled from the spec: alarm pending bit of the interrupt status
register. -/
def MCA_RTC_ALARM : Nat := 2

/-- The acquire-requested code written to a prepare register. -/
def MCA_RTC_ACQUIRE_REQUESTED : Nat := 1

/-- A register-transport operation, as issued to the regmap collaborator. -/
inductive BusOp where
  | write (addr : Nat) (val : Nat)
  | bulkWrite (addr : Nat) (data : List Nat)
  | updateBits (addr : Nat) (mask : Nat) (val : Nat)
  | read (addr : Nat)
  | bulkRead (addr : Nat) (len : Nat)
deriving DecidableEq

/-- The transport state: the 8-bit register file, a failure schedule giving
for each transaction index `some errorcode` (transaction fails, no register
change) or `none` (transaction succeeds), the index of the next transaction,
and the trace of operations attempted so far. -/
structure Bus where
  regs : Nat → Nat
  fail : Nat → Option Int
  step : Nat
  trace : List BusOp

/-- Point update of the register file. -/
def updateReg (a v : Nat) (r : Nat → Nat) : Nat → Nat :=
  fun x => if x = a then v else r x

/-- Write a list of bytes at consecutive addresses. -/
def writeSeq : Nat → List Nat → (Nat → Nat) → (Nat → Nat)
  | _, [], r => r
  | a, v :: vs, r => writeSeq (a + 1) vs (updateReg a v r)

/-- Read `len` bytes at consecutive addresses. -/
def readSeq (r : Nat → Nat) : Nat → Nat → List Nat
  | _, 0 => []
  | a, len + 1 => r a :: readSeq r (a + 1) len

/-- Execute one transport transaction: on success apply `eff` to the register
file and return 0, on scheduled failure leave the registers unchanged and
return the error code.  Either way the operation is recorded in the trace and
the transaction index advances. -/
def busStep (b : Bus) (op : BusOp) (eff : (Nat → Nat) → (Nat → Nat)) : Int × Bus :=
  match b.fail b.step with
  | some e => (e, ⟨b.regs, b.fail, b.step + 1, b.trace ++ [op]⟩)
  | none => (0, ⟨eff b.regs, b.fail, b.step + 1, b.trace ++ [op]⟩)

/-- regmap_write. -/
def regmap_write (b : Bus) (a v : Nat) : Int × Bus :=
  busStep b (BusOp.write a v) (updateReg a v)

/-- regmap_bulk_write. -/
def regmap_bulk_write (b : Bus) (a : Nat) (ds : List Nat) : Int × Bus :=
  busStep b (BusOp.bulkWrite a ds) (writeSeq a ds)

/-- regmap_update_bits: read-modify-write of one 8-bit register, replacing
exactly the bits of `mask` by those of `v`. -/
def regmap_update_bits (b : Bus) (a mask v : Nat) : Int × Bus :=
  busStep b (BusOp.updateBits a mask v)
    (fun r => updateReg a ((r a &&& (255 ^^^ mask)) ||| (v &&& mask)) r)

/-- regmap_read: returns the status, the value read, and the new bus.  The
value is only meaningful when the status is 0. -/
def regmap_read (b : Bus) (a : Nat) : Int × Nat × Bus :=
  match busStep b (BusOp.read a) id with
  | (ret, b') => (ret, b.regs a, b')

/-- regmap_bulk_read of `len` consecutive bytes. -/
def regmap_bulk_read (b : Bus) (a len : Nat) : Int × List Nat × Bus :=
  match busStep b (BusOp.bulkRead a len) id with
  | (ret, b') => (ret, readSeq b.regs a len, b')

/-- The driver's per-instance runtime state (the mca_rtc fields the core state
machine uses). -/
structure McaRtc where
  alarm_enabled : Bool
  prepare_enabled : Bool
deriving DecidableEq

/-- The rtc_wkalrm structure: alarm time, enabled flag, pending flag. -/
structure rtc_wkalrm where
  enabled : Bool
  pending : Bool
  time : rtc_time
deriving DecidableEq

/-- mca_rtc_stop_alarm: clear the alarm-enable bit of the control register. -/
def mca_rtc_stop_alarm (b : Bus) : Int × Bus :=
  regmap_update_bits b MCA_RTC_CONTROL MCA_RTC_ALARM_EN 0

/-- mca_rtc_start_alarm: set the alarm-enable bit of the control register. -/
def mca_rtc_start_alarm (b : Bus) : Int × Bus :=
  regmap_update_bits b MCA_RTC_CONTROL MCA_RTC_ALARM_EN MCA_RTC_ALARM_EN

/-- mca_rtc_alarm_irq_enable: start or stop the alarm; the runtime
alarm_enabled flag is updated only when the control-register write
succeeded. -/
def mca_rtc_alarm_irq_enable (rtc : McaRtc) (b : Bus) (enabled : Bool) :
    Int × McaRtc × Bus :=
  if enabled then
    match mca_rtc_start_alarm b with
    | (ret, b') =>
      if ret ≠ 0 then (ret, rtc, b')
      else (ret, { rtc with alarm_enabled := true }, b')
  else
    match mca_rtc_stop_alarm b with
    | (ret, b') =>
      if ret ≠ 0 then (ret, rtc, b')
      else (ret, { rtc with alarm_enabled := false }, b')

/-- The 7 bytes of a register block in bus order. -/
def dataToList (d : RtcData) : List Nat :=
  [d.yearL, d.yearH, d.month, d.day, d.hour, d.min, d.sec]

/-- Rebuild a register block from 7 bus bytes. -/
def listToData (l : List Nat) : RtcData :=
  ⟨l.getD 0 0, l.getD 1 0, l.getD 2 0, l.getD 3 0, l.getD 4 0, l.getD 5 0, l.getD 6 0⟩

/-- mca_rtc_set_alarm: apply the ToHardware adjustment, encode into a
zero-initialized buffer, bulk-write the alarm block, and only then invoke
the enable step with the requested enabled flag. -/
def mca_rtc_set_alarm (rtc : McaRtc) (b : Bus) (alrm : rtc_wkalrm) :
    Int × McaRtc × Bus :=
  let adjusted := mca_rtc_adjust_alarm_time alrm.time false
  let data := mca_tm_to_data adjusted zeroData
  match regmap_bulk_write b MCA_RTC_ALARM_YEAR_L (dataToList data) with
  | (ret, b1) =>
    if ret < 0 then (ret, rtc, b1)
    else mca_rtc_alarm_irq_enable rtc b1 alrm.enabled

/-- mca_rtc_read_alarm: optional prepare handshake, bulk-read of the alarm
block, decode, FromHardware adjustment, then a read of the control register
(whose value is discarded by the source) and a read of the interrupt status
register for the pending bit.  The caller's alrm structure is updated in
place; its enabled field is never written. -/
def mca_rtc_read_alarm (rtc : McaRtc) (b : Bus) (alrm : rtc_wkalrm) :
    Int × rtc_wkalrm × Bus :=
  let b0 := if rtc.prepare_enabled
    then (regmap_write b MCA_RTC_PREPARE_ALARM MCA_RTC_ACQUIRE_REQUESTED).2
    else b
  match regmap_bulk_read b0 MCA_RTC_ALARM_YEAR_L 7 with
  | (ret, data, b1) =>
    if ret < 0 then (ret, alrm, b1)
    else
      let alrm1 := { alrm with
        time := mca_rtc_adjust_alarm_time (mca_data_to_tm (listToData data)) true }
      match regmap_read b1 MCA_RTC_CONTROL with
      | (ret2, _, b2) =>
        if ret2 < 0 then (ret2, alrm1, b2)
        else
          match regmap_read b2 MCA_IRQ_STATUS_0 with
          | (ret3, val3, b3) =>
            if ret3 < 0 then (ret3, alrm1, b3)
            else (0, { alrm1 with pending := (val3 &&& MCA_RTC_ALARM) ≠ 0 }, b3)

/-- mca_rtc_suspend: if the device may not wake the system and the runtime
alarm flag is set, disable the hardware alarm; a failure is only logged.
The hook always returns 0 and never touches the runtime flag. -/
def mca_rtc_suspend (rtc : McaRtc) (b : Bus) (may_wakeup : Bool) :
    Int × McaRtc × Bus :=
  if !may_wakeup && rtc.alarm_enabled then
    match mca_rtc_stop_alarm b with
    | (_, b') => (0, rtc, b')
  else (0, rtc, b)

/-- mca_rtc_resume: under the same condition as suspend, re-enable the
hardware alarm; a failure is only logged.  Always returns 0, never touches
the runtime flag. -/
def mca_rtc_resume (rtc : McaRtc) (b : Bus) (may_wakeup : Bool) :
    Int × McaRtc × Bus :=
  if !may_wakeup && rtc.alarm_enabled then
    match mca_rtc_start_alarm b with
    | (_, b') => (0, rtc, b')
  else (0, rtc, b)

/-- The event kinds the driver reports to the RTC framework collaborator:
alarm fired (RTC_AF), update tick (RTC_UF), periodic tick (RTC_PF). -/
inductive RtcEventKind where
  | alarmFired
  | update
  | periodic
deriving DecidableEq

/-- Interrupt handler return values. -/
inductive IrqreturnT where
  | irqNone
  | irqHandled
  | irqWakeThread
deriving DecidableEq

/-- mca_alarm_event: notify one alarm-fired event and report the interrupt
handled.  The notification collaborator's outcome (`notifyResult`) cannot
influence the handler. -/
def mca_alarm_event (_notifyResult : Int) : List RtcEventKind × IrqreturnT :=
  ([RtcEventKind.alarmFired], IrqreturnT.irqHandled)

/-- mca_1HZ_event: notify one update event and report the interrupt
handled. -/
def mca_1HZ_event (_notifyResult : Int) : List RtcEventKind × IrqreturnT :=
  ([RtcEventKind.update], IrqreturnT.irqHandled)

/-- mca_periodic_irq_event: notify one periodic event and report the
interrupt handled. -/
def mca_periodic_irq_event (_notifyResult : Int) : List RtcEventKind × IrqreturnT :=
  ([RtcEventKind.periodic], IrqreturnT.irqHandled)

/-- Modelled from the spec: the numeric base of the vendor ioctl surface. -/
def RTC_IOCTL_DIGI : Nat := 256

/-- Modelled from the spec: kernel rtc ioctl numbers (from the missing uapi
rtc header); concrete values arbitrary but distinct. -/
def RTC_UIE_ON : Nat := 3

/-- Modelled from the spec: kernel rtc ioctl number. -/
def RTC_UIE_OFF : Nat := 4

/-- Modelled from the spec: kernel rtc ioctl number. -/
def RTC_PIE_ON : Nat := 5

/-- Modelled from the spec: kernel rtc ioctl number. -/
def RTC_PIE_OFF : Nat := 6

/-- Modelled from the spec: kernel rtc ioctl number. -/
def RTC_IRQP_READ : Nat := 11

/-- Modelled from the spec: kernel rtc ioctl number. -/
def RTC_IRQP_SET : Nat := 12

/-- Vendor ioctl command: 1 Hz update interrupt on. -/
def RTC_MCA_UIE_ON : Nat := RTC_IOCTL_DIGI + RTC_UIE_ON

/-- Vendor ioctl command: 1 Hz update interrupt off. -/
def RTC_MCA_UIE_OFF : Nat := RTC_IOCTL_DIGI + RTC_UIE_OFF

/-- Vendor ioctl command: periodic interrupt on. -/
def RTC_MCA_PIE_ON : Nat := RTC_IOCTL_DIGI + RTC_PIE_ON

/-- Vendor ioctl command: periodic interrupt off. -/
def RTC_MCA_PIE_OFF : Nat := RTC_IOCTL_DIGI + RTC_PIE_OFF

/-- Vendor ioctl command: read the periodic interrupt frequency in Hz. -/
def RTC_MCA_IRQP_READ : Nat := RTC_IOCTL_DIGI + RTC_IRQP_READ

/-- Vendor ioctl command: set the periodic interrupt frequency in Hz. -/
def RTC_MCA_IRQP_SET : Nat := RTC_IOCTL_DIGI + RTC_IRQP_SET

/-- C unsigned division whose divisor-zero case is undefined behavior in the
source: modelled as a fault (`none`). -/
def cdiv (a b : Nat) : Option Nat :=
  if b = 0 then none else some (a / b)

/-- mca_rtc_ioctl.  Returns `none` when the source reaches undefined behavior
(division by zero); otherwise `some (ret, putUser, bus)` where `putUser` is
the value copied back to the caller by IRQP_READ, if any.  The two bytes of
the 16-bit tick-count register travel in little-endian order. -/
def mca_rtc_ioctl (b : Bus) (cmd : Nat) (arg : Nat) :
    Option (Int × Option Nat × Bus) :=
  if cmd = RTC_MCA_UIE_ON ∨ cmd = RTC_MCA_UIE_OFF then
    match regmap_update_bits b MCA_RTC_CONTROL MCA_RTC_1HZ_EN
      (if cmd = RTC_MCA_UIE_ON then MCA_RTC_1HZ_EN else 0) with
    | (ret, b') => if ret ≠ 0 then some (-14, none, b') else some (0, none, b')
  else if cmd = RTC_MCA_PIE_ON ∨ cmd = RTC_MCA_PIE_OFF then
    match regmap_update_bits b MCA_RTC_CONTROL MCA_RTC_PERIODIC_EN
      (if cmd = RTC_MCA_PIE_ON then MCA_RTC_PERIODIC_EN else 0) with
    | (ret, b') => if ret ≠ 0 then some (-14, none, b') else some (0, none, b')
  else if cmd = RTC_MCA_IRQP_READ then
    match regmap_bulk_read b MCA_RTC_PERIODIC_IRQ_FREQ 2 with
    | (ret, bytes, b') =>
      if ret < 0 then some (-14, none, b')
      else
        match cdiv 1024 (bytes.getD 0 0 + 256 * bytes.getD 1 0) with
        | none => none
        | some hz => some (0, some hz, b')
  else if cmd = RTC_MCA_IRQP_SET then
    match cdiv 1024 arg with
    | none => none
    | some ticks =>
      match regmap_bulk_write b MCA_RTC_PERIODIC_IRQ_FREQ
        [ticks % 256, ticks / 256 % 256] with
      | (ret, b') => if ret < 0 then some (-14, none, b') else some (0, none, b')
  else some (-515, none, b)

/-- rtc_irq_pin_enable_store, after the textual parse of its input: the
source maps the exact strings for enabled/disabled to the boolean and
rejects anything else with -EINVAL before touching the bus. -/
def rtc_irq_pin_enable_store (b : Bus) (parsed : Option Bool) : Int × Bus :=
  match parsed with
  | none => (-22, b)
  | some enable =>
    match regmap_update_bits b MCA_RTC_CONTROL MCA_RTC_IRQ_PIN_EN
      (if enable then MCA_RTC_IRQ_PIN_EN else 0) with
    | (ret, b') => if ret ≠ 0 then (ret, b') else (1, b')

/- ### Claim theorems -/

/-- A transport on which every transaction succeeds, over a zeroed register
file. -/
def busOk : Bus := ⟨fun _ => 0, fun _ => none, 0, []⟩

/-- A transport whose every transaction fails with error code -5 (-EIO). -/
def busFail : Bus := ⟨fun _ => 0, fun _ => some (-5), 0, []⟩

/-- Claim C1: for every calendar value within the hardware-representable
range (16-bit year field, month 1-12, day 1-31, hour 0-23, minute 0-59,
second 0-59), decoding the encoding of that value into a zero-initialized
7-byte buffer returns the original value, the year-1900 and month-1 host
offsets being applied at both ends. -/
theorem C1_encode_decode_roundtrip (t : rtc_time) (h : HwEncodable t) :
    mca_data_to_tm (mca_tm_to_data t zeroData) = t :=
  mca_decode_encode t h

theorem C1_encode_decode_roundtrip_witness :
    HwEncodable ⟨0, 0, 12, 1, 2, 124⟩ ∧
    mca_data_to_tm (mca_tm_to_data ⟨0, 0, 12, 1, 2, 124⟩ zeroData) = ⟨0, 0, 12, 1, 2, 124⟩ :=
  ⟨by decide, C1_encode_decode_roundtrip ⟨0, 0, 12, 1, 2, 124⟩ (by decide)⟩

/-- Claim C3: applying the ToHardware adjustment (one second subtracted via
the linear timestamp) followed by the FromHardware adjustment (one second
added the same way) returns the alarm time unchanged, including on month or
year rollover boundaries.  The time is restricted to the valid
epoch-representable range of the modelled conversions (strictly after the
epoch, below the 64-bit wrap). -/
theorem C3_adjust_roundtrip (t : rtc_time) (hv : RtcTimeValid t)
    (h1 : 1 ≤ rtc_tm_to_time64 t) (h2 : rtc_tm_to_time64 t < 2 ^ 64) :
    mca_rtc_adjust_alarm_time (mca_rtc_adjust_alarm_time t false) true = t :=
  adjust_alarm_time_roundtrip t hv h1 h2

theorem C3_adjust_roundtrip_witness :
    RtcTimeValid ⟨59, 59, 23, 31, 2, 124⟩ ∧
    1 ≤ rtc_tm_to_time64 ⟨59, 59, 23, 31, 2, 124⟩ ∧
    rtc_tm_to_time64 ⟨59, 59, 23, 31, 2, 124⟩ < 2 ^ 64 ∧
    mca_rtc_adjust_alarm_time (mca_rtc_adjust_alarm_time ⟨59, 59, 23, 31, 2, 124⟩ false) true =
      ⟨59, 59, 23, 31, 2, 124⟩ :=
  ⟨by decide, by decide, by decide,
    C3_adjust_roundtrip ⟨59, 59, 23, 31, 2, 124⟩ (by decide) (by decide) (by decide)⟩

/-- Claim C9: each interrupt handler issues exactly one event notification
with the kind matching its source (alarm, 1 Hz update, periodic) and
unconditionally reports the interrupt handled, whatever the outcome of the
notification call. -/
theorem C9_interrupt_handlers (r : Int) :
    mca_alarm_event r = ([RtcEventKind.alarmFired], IrqreturnT.irqHandled) ∧
    mca_1HZ_event r = ([RtcEventKind.update], IrqreturnT.irqHandled) ∧
    mca_periodic_irq_event r = ([RtcEventKind.periodic], IrqreturnT.irqHandled) :=
  ⟨rfl, rfl, rfl⟩

/-- Claim C4: contrary to the claim, a requested Hz value of 0 is not
rejected: IRQP_SET evaluates ticks = 1024 / hz with a zero divisor, which is
undefined behavior in the source (modelled as a fault), and IRQP_READ
likewise divides by a hardware tick count of 0. -/
theorem C4_division_by_zero_fault :
    mca_rtc_ioctl busOk RTC_MCA_IRQP_SET 0 = none ∧
    mca_rtc_ioctl busOk RTC_MCA_IRQP_READ 0 = none := by
  constructor
  · rfl
  · rfl

/-- Claim C7: mca_rtc_alarm_irq_enable updates the runtime alarm_enabled
flag only when the control-register read-modify-write succeeds: on a
transport failure the flag keeps its previous value and the error is
returned; on success the flag takes the requested value and 0 is
returned. -/
theorem C7_alarm_irq_enable_flag (rtc : McaRtc) (b : Bus) (en : Bool) (e : Int) :
    (b.fail b.step = some e → e ≠ 0 →
      (mca_rtc_alarm_irq_enable rtc b en).1 = e ∧
      (mca_rtc_alarm_irq_enable rtc b en).2.1 = rtc) ∧
    (b.fail b.step = none →
      (mca_rtc_alarm_irq_enable rtc b en).1 = 0 ∧
      (mca_rtc_alarm_irq_enable rtc b en).2.1.alarm_enabled = en) := by
  constructor
  · intro hf he
    cases en <;>
      simp [mca_rtc_alarm_irq_enable, mca_rtc_start_alarm, mca_rtc_stop_alarm,
        regmap_update_bits, busStep, hf, he]
  · intro hf
    cases en <;>
      simp [mca_rtc_alarm_irq_enable, mca_rtc_start_alarm, mca_rtc_stop_alarm,
        regmap_update_bits, busStep, hf]

theorem C7_alarm_irq_enable_flag_witness :
    busFail.fail busFail.step = some (-5) ∧ ((-5 : Int) ≠ 0) ∧
    (mca_rtc_alarm_irq_enable ⟨true, false⟩ busFail false).1 = -5 ∧
    (mca_rtc_alarm_irq_enable ⟨true, false⟩ busFail false).2.1 = ⟨true, false⟩ :=
  ⟨rfl, by decide,
    ((C7_alarm_irq_enable_flag ⟨true, false⟩ busFail false (-5)).1 rfl (by decide)).1,
    ((C7_alarm_irq_enable_flag ⟨true, false⟩ busFail false (-5)).1 rfl (by decide)).2⟩

/-- Claim C8: the suspend hook touches the hardware alarm-enable bit exactly
when the device may not wake the system and the runtime armed flag is set;
in that case it clears the bit (on transport success) without changing the
runtime flag, and the resume hook sets it again under the same condition;
both hooks leave the runtime flag untouched and return 0 even when the
hardware write fails. -/
theorem C8_suspend_resume (rtc : McaRtc) (b : Bus) (w : Bool) :
    (mca_rtc_suspend rtc b w).1 = 0 ∧
    (mca_rtc_suspend rtc b w).2.1 = rtc ∧
    (mca_rtc_resume rtc b w).1 = 0 ∧
    (mca_rtc_resume rtc b w).2.1 = rtc ∧
    (w = false → rtc.alarm_enabled = true →
      (b.fail b.step = none →
        ((mca_rtc_suspend rtc b w).2.2.regs MCA_RTC_CONTROL).testBit 1 = false ∧
        ((mca_rtc_resume rtc b w).2.2.regs MCA_RTC_CONTROL).testBit 1 = true ∧
        (∀ a, a ≠ MCA_RTC_CONTROL → (mca_rtc_suspend rtc b w).2.2.regs a = b.regs a)) ∧
      (∀ e, b.fail b.step = some e →
        (mca_rtc_suspend rtc b w).2.2.regs = b.regs ∧
        (mca_rtc_resume rtc b w).2.2.regs = b.regs)) ∧
    (¬ (w = false ∧ rtc.alarm_enabled = true) →
      (mca_rtc_suspend rtc b w).2.2 = b ∧ (mca_rtc_resume rtc b w).2.2 = b) := by
  by_cases hc : w = false ∧ rtc.alarm_enabled = true
  · obtain ⟨hw, ha⟩ := hc
    subst hw
    refine ⟨?_, ?_, ?_, ?_, ?_, ?_⟩
    · simp [mca_rtc_suspend, ha, mca_rtc_stop_alarm, regmap_update_bits, busStep]
    · simp [mca_rtc_suspend, ha, mca_rtc_stop_alarm, regmap_update_bits, busStep]
    · simp [mca_rtc_resume, ha, mca_rtc_start_alarm, regmap_update_bits, busStep]
    · simp [mca_rtc_resume, ha, mca_rtc_start_alarm, regmap_update_bits, busStep]
    · intro _ _
      constructor
      · intro hf
        refine ⟨?_, ?_, ?_⟩
        · simp [mca_rtc_suspend, ha, mca_rtc_stop_alarm, regmap_update_bits, busStep, hf,
            updateReg, MCA_RTC_CONTROL, MCA_RTC_ALARM_EN]
          intro _
          decide
        · simp [mca_rtc_resume, ha, mca_rtc_start_alarm, regmap_update_bits, busStep, hf,
            updateReg, MCA_RTC_CONTROL, MCA_RTC_ALARM_EN]
          exact Or.inr (by decide)
        · intro a haddr
          simp [mca_rtc_suspend, ha, mca_rtc_stop_alarm, regmap_update_bits, busStep, hf,
            updateReg, haddr]
      · intro e hf
        constructor
        · simp [mca_rtc_suspend, ha, mca_rtc_stop_alarm, regmap_update_bits, busStep, hf]
        · simp [mca_rtc_resume, ha, mca_rtc_start_alarm, regmap_update_bits, busStep, hf]
    · intro hnc
      exact absurd ⟨rfl, ha⟩ hnc
  · have hcond : (!w && rtc.alarm_enabled) = false := by
      cases w <;> cases hae : rtc.alarm_enabled <;> simp_all
    refine ⟨?_, ?_, ?_, ?_, ?_, ?_⟩ <;>
      simp [mca_rtc_suspend, mca_rtc_resume, hcond]
    intro hw ha
    exact absurd ⟨hw, ha⟩ hc

theorem C8_suspend_resume_witness :
    ((false : Bool) = false) ∧ (McaRtc.alarm_enabled ⟨true, false⟩ = true) ∧
    (busOk.fail busOk.step = none) ∧
    (mca_rtc_suspend ⟨true, false⟩ busOk false).1 = 0 ∧
    (mca_rtc_suspend ⟨true, false⟩ busOk false).2.1 = ⟨true, false⟩ ∧
    ((mca_rtc_suspend ⟨true, false⟩ busOk false).2.2.regs MCA_RTC_CONTROL).testBit 1 = false ∧
    ((mca_rtc_resume ⟨true, false⟩ busOk false).2.2.regs MCA_RTC_CONTROL).testBit 1 = true :=
  ⟨rfl, rfl, rfl,
    (C8_suspend_resume ⟨true, false⟩ busOk false).1,
    (C8_suspend_resume ⟨true, false⟩ busOk false).2.1,
    (((C8_suspend_resume ⟨true, false⟩ busOk false).2.2.2.2.1 rfl rfl).1 rfl).1,
    (((C8_suspend_resume ⟨true, false⟩ busOk false).2.2.2.2.1 rfl rfl).1 rfl).2.1⟩

/-- Extract the bus from an ioctl result (the fault case does not occur for
the bit-toggle commands). -/
def ioctlBus (r : Option (Int × Option Nat × Bus)) (dflt : Bus) : Bus :=
  match r with
  | some (_, _, b') => b'
  | none => dflt

theorem control_update_testBit (x v m : Nat) (hx : x < 256) (i : Nat)
    (hm : m.testBit i = false) :
    ((x &&& (255 ^^^ m)) ||| (v &&& m)).testBit i = x.testBit i :=
  maskedByte_frame x (v &&& m) m hx i hm (by rw [Nat.testBit_and, hm, Bool.and_false])

theorem testBit_pow_ne (k i : Nat) (h : i ≠ k) : ((2 ^ k : Nat)).testBit i = false := by
  rw [Nat.testBit_two_pow]
  exact decide_eq_false (fun hk => h hk.symm)

/-- Claim C10: every control-register write of the bit-toggle operations
(stop/start alarm, the UIE and PIE ioctls, the irq-pin-enable attribute
store) is a masked read-modify-write that changes only its own control bit,
leaving every other bit of the 8-bit control register unchanged. -/
theorem C10_control_rmw_frame (b : Bus) (i : Nat)
    (hfail : b.fail b.step = none) (hreg : b.regs MCA_RTC_CONTROL < 256) :
    (i ≠ 1 → ((mca_rtc_stop_alarm b).2.regs MCA_RTC_CONTROL).testBit i =
      (b.regs MCA_RTC_CONTROL).testBit i) ∧
    (i ≠ 1 → ((mca_rtc_start_alarm b).2.regs MCA_RTC_CONTROL).testBit i =
      (b.regs MCA_RTC_CONTROL).testBit i) ∧
    (i ≠ 2 → ((ioctlBus (mca_rtc_ioctl b RTC_MCA_UIE_ON 0) b).regs MCA_RTC_CONTROL).testBit i =
      (b.regs MCA_RTC_CONTROL).testBit i) ∧
    (i ≠ 2 → ((ioctlBus (mca_rtc_ioctl b RTC_MCA_UIE_OFF 0) b).regs MCA_RTC_CONTROL).testBit i =
      (b.regs MCA_RTC_CONTROL).testBit i) ∧
    (i ≠ 3 → ((ioctlBus (mca_rtc_ioctl b RTC_MCA_PIE_ON 0) b).regs MCA_RTC_CONTROL).testBit i =
      (b.regs MCA_RTC_CONTROL).testBit i) ∧
    (i ≠ 3 → ((ioctlBus (mca_rtc_ioctl b RTC_MCA_PIE_OFF 0) b).regs MCA_RTC_CONTROL).testBit i =
      (b.regs MCA_RTC_CONTROL).testBit i) ∧
    (i ≠ 4 → (((rtc_irq_pin_enable_store b (some true)).2.regs MCA_RTC_CONTROL).testBit i =
      (b.regs MCA_RTC_CONTROL).testBit i)) ∧
    (i ≠ 4 → (((rtc_irq_pin_enable_store b (some false)).2.regs MCA_RTC_CONTROL).testBit i =
      (b.regs MCA_RTC_CONTROL).testBit i)) := by
  have hstop : (mca_rtc_stop_alarm b).2.regs MCA_RTC_CONTROL =
      (b.regs MCA_RTC_CONTROL &&& (255 ^^^ MCA_RTC_ALARM_EN)) ||| (0 &&& MCA_RTC_ALARM_EN) := by
    unfold mca_rtc_stop_alarm regmap_update_bits busStep
    rw [hfail]
    rfl
  have hstart : (mca_rtc_start_alarm b).2.regs MCA_RTC_CONTROL =
      (b.regs MCA_RTC_CONTROL &&& (255 ^^^ MCA_RTC_ALARM_EN)) |||
        (MCA_RTC_ALARM_EN &&& MCA_RTC_ALARM_EN) := by
    unfold mca_rtc_start_alarm regmap_update_bits busStep
    rw [hfail]
    rfl
  have huon : (ioctlBus (mca_rtc_ioctl b RTC_MCA_UIE_ON 0) b).regs MCA_RTC_CONTROL =
      (b.regs MCA_RTC_CONTROL &&& (255 ^^^ MCA_RTC_1HZ_EN)) |||
        (MCA_RTC_1HZ_EN &&& MCA_RTC_1HZ_EN) := by
    unfold mca_rtc_ioctl regmap_update_bits busStep
    rw [hfail]
    rfl
  have huoff : (ioctlBus (mca_rtc_ioctl b RTC_MCA_UIE_OFF 0) b).regs MCA_RTC_CONTROL =
      (b.regs MCA_RTC_CONTROL &&& (255 ^^^ MCA_RTC_1HZ_EN)) ||| (0 &&& MCA_RTC_1HZ_EN) := by
    unfold mca_rtc_ioctl regmap_update_bits busStep
    rw [hfail]
    rfl
  have hpon : (ioctlBus (mca_rtc_ioctl b RTC_MCA_PIE_ON 0) b).regs MCA_RTC_CONTROL =
      (b.regs MCA_RTC_CONTROL &&& (255 ^^^ MCA_RTC_PERIODIC_EN)) |||
        (MCA_RTC_PERIODIC_EN &&& MCA_RTC_PERIODIC_EN) := by
    unfold mca_rtc_ioctl regmap_update_bits busStep
    rw [hfail]
    rfl
  have hpoff : (ioctlBus (mca_rtc_ioctl b RTC_MCA_PIE_OFF 0) b).regs MCA_RTC_CONTROL =
      (b.regs MCA_RTC_CONTROL &&& (255 ^^^ MCA_RTC_PERIODIC_EN)) |||
        (0 &&& MCA_RTC_PERIODIC_EN) := by
    unfold mca_rtc_ioctl regmap_update_bits busStep
    rw [hfail]
    rfl
  have hson : (rtc_irq_pin_enable_store b (some true)).2.regs MCA_RTC_CONTROL =
      (b.regs MCA_RTC_CONTROL &&& (255 ^^^ MCA_RTC_IRQ_PIN_EN)) |||
        (MCA_RTC_IRQ_PIN_EN &&& MCA_RTC_IRQ_PIN_EN) := by
    unfold rtc_irq_pin_enable_store regmap_update_bits busStep
    rw [hfail]
    rfl
  have hsoff : (rtc_irq_pin_enable_store b (some false)).2.regs MCA_RTC_CONTROL =
      (b.regs MCA_RTC_CONTROL &&& (255 ^^^ MCA_RTC_IRQ_PIN_EN)) |||
        (0 &&& MCA_RTC_IRQ_PIN_EN) := by
    unfold rtc_irq_pin_enable_store regmap_update_bits busStep
    rw [hfail]
    rfl
  refine ⟨?_, ?_, ?_, ?_, ?_, ?_, ?_, ?_⟩ <;> intro h
  · rw [hstop]
    exact control_update_testBit _ _ _ hreg i
      (by rw [show MCA_RTC_ALARM_EN = 2 ^ 1 from rfl]; exact testBit_pow_ne 1 i h)
  · rw [hstart]
    exact control_update_testBit _ _ _ hreg i
      (by rw [show MCA_RTC_ALARM_EN = 2 ^ 1 from rfl]; exact testBit_pow_ne 1 i h)
  · rw [huon]
    exact control_update_testBit _ _ _ hreg i
      (by rw [show MCA_RTC_1HZ_EN = 2 ^ 2 from rfl]; exact testBit_pow_ne 2 i h)
  · rw [huoff]
    exact control_update_testBit _ _ _ hreg i
      (by rw [show MCA_RTC_1HZ_EN = 2 ^ 2 from rfl]; exact testBit_pow_ne 2 i h)
  · rw [hpon]
    exact control_update_testBit _ _ _ hreg i
      (by rw [show MCA_RTC_PERIODIC_EN = 2 ^ 3 from rfl]; exact testBit_pow_ne 3 i h)
  · rw [hpoff]
    exact control_update_testBit _ _ _ hreg i
      (by rw [show MCA_RTC_PERIODIC_EN = 2 ^ 3 from rfl]; exact testBit_pow_ne 3 i h)
  · rw [hson]
    exact control_update_testBit _ _ _ hreg i
      (by rw [show MCA_RTC_IRQ_PIN_EN = 2 ^ 4 from rfl]; exact testBit_pow_ne 4 i h)
  · rw [hsoff]
    exact control_update_testBit _ _ _ hreg i
      (by rw [show MCA_RTC_IRQ_PIN_EN = 2 ^ 4 from rfl]; exact testBit_pow_ne 4 i h)

theorem C10_control_rmw_frame_witness :
    busOk.fail busOk.step = none ∧ busOk.regs MCA_RTC_CONTROL < 256 ∧ (0 : Nat) ≠ 1 ∧
    ((mca_rtc_stop_alarm busOk).2.regs MCA_RTC_CONTROL).testBit 0 =
      (busOk.regs MCA_RTC_CONTROL).testBit 0 :=
  ⟨rfl, by decide, by decide,
    (C10_control_rmw_frame busOk 0 rfl (by decide)).1 (by decide)⟩

theorem writeSeq7_getD (r : Nat → Nat) (v0 v1 v2 v3 v4 v5 v6 : Nat) (k : Nat) (hk : k < 7) :
    writeSeq 8 [v0, v1, v2, v3, v4, v5, v6] r (8 + k) =
      [v0, v1, v2, v3, v4, v5, v6].getD k 0 := by
  interval_cases k <;> simp [writeSeq, updateReg]

/-- Claim C5: set_alarm first attempts the bulk write of the encoded,
ToHardware-adjusted alarm block and only afterwards the enable step.  If the
write fails, the enable is never attempted (the trace holds only the bulk
write), the registers are unchanged and the transport error is returned; if
the write succeeds and the enable step fails, the alarm block already holds
the encoded value and the enable step's error is returned, the runtime flag
staying unchanged. -/
theorem C5_set_alarm_phases (rtc : McaRtc) (b : Bus) (alrm : rtc_wkalrm) (e : Int) :
    (b.fail b.step = some e → e < 0 →
      (mca_rtc_set_alarm rtc b alrm).1 = e ∧
      (mca_rtc_set_alarm rtc b alrm).2.1 = rtc ∧
      (mca_rtc_set_alarm rtc b alrm).2.2.regs = b.regs ∧
      (mca_rtc_set_alarm rtc b alrm).2.2.trace = b.trace ++
        [BusOp.bulkWrite MCA_RTC_ALARM_YEAR_L
          (dataToList (mca_tm_to_data (mca_rtc_adjust_alarm_time alrm.time false) zeroData))]) ∧
    (b.fail b.step = none → b.fail (b.step + 1) = some e → e ≠ 0 →
      (mca_rtc_set_alarm rtc b alrm).1 = e ∧
      (mca_rtc_set_alarm rtc b alrm).2.1 = rtc ∧
      (∀ k, k < 7 →
        (mca_rtc_set_alarm rtc b alrm).2.2.regs (MCA_RTC_ALARM_YEAR_L + k) =
          (dataToList (mca_tm_to_data (mca_rtc_adjust_alarm_time alrm.time false)
            zeroData)).getD k 0) ∧
      (mca_rtc_set_alarm rtc b alrm).2.2.trace = b.trace ++
        [BusOp.bulkWrite MCA_RTC_ALARM_YEAR_L
          (dataToList (mca_tm_to_data (mca_rtc_adjust_alarm_time alrm.time false) zeroData)),
         BusOp.updateBits MCA_RTC_CONTROL MCA_RTC_ALARM_EN
           (if alrm.enabled then MCA_RTC_ALARM_EN else 0)]) := by
  constructor
  · intro hf he
    have hrun : mca_rtc_set_alarm rtc b alrm =
        (e, rtc, ⟨b.regs, b.fail, b.step + 1, b.trace ++
          [BusOp.bulkWrite MCA_RTC_ALARM_YEAR_L
            (dataToList (mca_tm_to_data (mca_rtc_adjust_alarm_time alrm.time false)
              zeroData))]⟩) := by
      unfold mca_rtc_set_alarm regmap_bulk_write busStep
      rw [hf]
      dsimp only
      rw [if_pos he]
    exact ⟨by rw [hrun], by rw [hrun], by rw [hrun], by rw [hrun]⟩
  · intro hf1 hf2 he
    cases halrm : alrm.enabled
    · have hrun : mca_rtc_set_alarm rtc b alrm =
          (e, rtc, ⟨writeSeq MCA_RTC_ALARM_YEAR_L
              (dataToList (mca_tm_to_data (mca_rtc_adjust_alarm_time alrm.time false)
                zeroData)) b.regs,
            b.fail, b.step + 2, b.trace ++
            [BusOp.bulkWrite MCA_RTC_ALARM_YEAR_L
              (dataToList (mca_tm_to_data (mca_rtc_adjust_alarm_time alrm.time false)
                zeroData)),
             BusOp.updateBits MCA_RTC_CONTROL MCA_RTC_ALARM_EN 0]⟩) := by
        unfold mca_rtc_set_alarm regmap_bulk_write busStep
        rw [hf1]
        dsimp only
        rw [if_neg (by omega : ¬ ((0 : Int) < 0)), halrm]
        unfold mca_rtc_alarm_irq_enable mca_rtc_stop_alarm regmap_update_bits busStep
        dsimp only
        rw [hf2, if_pos he]
        dsimp only
        rw [List.append_assoc]
        rfl
      refine ⟨by rw [hrun], by rw [hrun], ?_, by rw [hrun]; rfl⟩
      intro k hk
      rw [hrun]
      show writeSeq 8 _ b.regs (8 + k) = _
      unfold dataToList
      exact writeSeq7_getD b.regs _ _ _ _ _ _ _ k hk
    · have hrun : mca_rtc_set_alarm rtc b alrm =
          (e, rtc, ⟨writeSeq MCA_RTC_ALARM_YEAR_L
              (dataToList (mca_tm_to_data (mca_rtc_adjust_alarm_time alrm.time false)
                zeroData)) b.regs,
            b.fail, b.step + 2, b.trace ++
            [BusOp.bulkWrite MCA_RTC_ALARM_YEAR_L
              (dataToList (mca_tm_to_data (mca_rtc_adjust_alarm_time alrm.time false)
                zeroData)),
             BusOp.updateBits MCA_RTC_CONTROL MCA_RTC_ALARM_EN MCA_RTC_ALARM_EN]⟩) := by
        unfold mca_rtc_set_alarm regmap_bulk_write busStep
        rw [hf1]
        dsimp only
        rw [if_neg (by omega : ¬ ((0 : Int) < 0)), halrm]
        unfold mca_rtc_alarm_irq_enable mca_rtc_start_alarm regmap_update_bits busStep
        dsimp only
        rw [hf2, if_pos he]
        dsimp only
        rw [List.append_assoc]
        rfl
      refine ⟨by rw [hrun], by rw [hrun], ?_, by rw [hrun]; rfl⟩
      intro k hk
      rw [hrun]
      show writeSeq 8 _ b.regs (8 + k) = _
      unfold dataToList
      exact writeSeq7_getD b.regs _ _ _ _ _ _ _ k hk

theorem C5_set_alarm_phases_witness :
    busFail.fail busFail.step = some (-5) ∧ ((-5 : Int) < 0) ∧
    (mca_rtc_set_alarm ⟨false, false⟩ busFail ⟨true, false, ⟨0, 0, 12, 1, 2, 124⟩⟩).1 = -5 ∧
    (mca_rtc_set_alarm ⟨false, false⟩ busFail ⟨true, false, ⟨0, 0, 12, 1, 2, 124⟩⟩).2.2.trace =
      [BusOp.bulkWrite MCA_RTC_ALARM_YEAR_L
        (dataToList (mca_tm_to_data
          (mca_rtc_adjust_alarm_time (⟨0, 0, 12, 1, 2, 124⟩ : rtc_time) false) zeroData))] :=
  ⟨rfl, by decide,
    ((C5_set_alarm_phases ⟨false, false⟩ busFail ⟨true, false, ⟨0, 0, 12, 1, 2, 124⟩⟩
      (-5)).1 rfl (by decide)).1,
    ((C5_set_alarm_phases ⟨false, false⟩ busFail ⟨true, false, ⟨0, 0, 12, 1, 2, 124⟩⟩
      (-5)).1 rfl (by decide)).2.2.2⟩

/-- The spec scenario run: set_alarm(2024-03-01 12:00:00, enabled := true) on
an all-success transport with zeroed registers. -/
def c2Run1 : Int × McaRtc × Bus :=
  mca_rtc_set_alarm ⟨false, false⟩ busOk ⟨true, false, ⟨0, 0, 12, 1, 2, 124⟩⟩

/-- The subsequent read_alarm, with a caller-provided alarm structure whose
enabled field is false. -/
def c2Run2 : Int × rtc_wkalrm × Bus :=
  mca_rtc_read_alarm c2Run1.2.1 c2Run1.2.2 ⟨false, false, ⟨0, 0, 0, 1, 0, 70⟩⟩

/-- Claim C2 counterexample: after a successful set_alarm(t, enabled=true)
that did arm the device (the control register's alarm-enable bit reads
back 1), the subsequent successful read_alarm returns the alarm time t but
armed = false: the enabled field keeps the caller's incoming value instead
of the control-register bit, refuting the claim that read_alarm returns
armed=true taken from the control register. -/
theorem C2_counterexample :
    c2Run1.1 = 0 ∧ c2Run2.1 = 0 ∧
    (c2Run1.2.2.regs MCA_RTC_CONTROL).testBit 1 = true ∧
    c2Run2.2.1.time = ⟨0, 0, 12, 1, 2, 124⟩ ∧
    c2Run2.2.1.enabled = false := by
  refine ⟨?_, ?_, ?_, ?_, ?_⟩ <;> decide

theorem readSeq7_skip (r : Nat → Nat) (a v : Nat) (ha : a < 8 ∨ 14 < a) :
    readSeq (updateReg a v r) 8 7 = readSeq r 8 7 := by
  have h8 : ¬ ((8 : Nat) = a) := by omega
  have h9 : ¬ ((9 : Nat) = a) := by omega
  have h10 : ¬ ((10 : Nat) = a) := by omega
  have h11 : ¬ ((11 : Nat) = a) := by omega
  have h12 : ¬ ((12 : Nat) = a) := by omega
  have h13 : ¬ ((13 : Nat) = a) := by omega
  have h14 : ¬ ((14 : Nat) = a) := by omega
  simp [readSeq, updateReg, h8, h9, h10, h11, h12, h13, h14]

theorem readSeq7_writeSeq (r : Nat → Nat) (v0 v1 v2 v3 v4 v5 v6 : Nat) :
    readSeq (writeSeq 8 [v0, v1, v2, v3, v4, v5, v6] r) 8 7 =
      [v0, v1, v2, v3, v4, v5, v6] := by
  simp [readSeq, writeSeq, updateReg]

theorem listToData_dataToList (d : RtcData) : listToData (dataToList d) = d := rfl

theorem read_alarm_components (rtc2 : McaRtc) (B : Bus) (ain : rtc_wkalrm)
    (hfail : ∀ n, B.fail n = none) :
    (mca_rtc_read_alarm rtc2 B ain).1 = 0 ∧
    (mca_rtc_read_alarm rtc2 B ain).2.1.enabled = ain.enabled ∧
    (mca_rtc_read_alarm rtc2 B ain).2.1.time =
      mca_rtc_adjust_alarm_time (mca_data_to_tm (listToData
        (readSeq (if rtc2.prepare_enabled
          then updateReg MCA_RTC_PREPARE_ALARM MCA_RTC_ACQUIRE_REQUESTED B.regs
          else B.regs) MCA_RTC_ALARM_YEAR_L 7))) true := by
  cases hprep : rtc2.prepare_enabled <;>
    · unfold mca_rtc_read_alarm regmap_write regmap_bulk_read regmap_read busStep
      simp [hfail, hprep]

theorem readSeq7_writeSeq_data (r : Nat → Nat) (d : RtcData) :
    readSeq (writeSeq 8 (dataToList d) r) 8 7 = dataToList d := by
  simp [dataToList, readSeq, writeSeq, updateReg]

/-- Claim C2 (amended): after set_alarm(t, enabled=true) succeeds on a
transport without failures, a subsequent read_alarm succeeds and returns the
alarm time t, but the armed flag of the returned alarm is not taken from the
control register: the control-register read's result is discarded and the
enabled field keeps its caller-provided incoming value. -/
theorem C2_read_alarm_after_set (rtc : McaRtc) (b : Bus) (ain : rtc_wkalrm)
    (t : rtc_time) (p : Bool)
    (hfail : ∀ n, b.fail n = none)
    (hv : RtcTimeValid t) (h1 : 1 ≤ rtc_tm_to_time64 t)
    (h2 : rtc_tm_to_time64 t < 2 ^ 64)
    (henc : HwEncodable (mca_rtc_adjust_alarm_time t false)) :
    (mca_rtc_set_alarm rtc b ⟨true, p, t⟩).1 = 0 ∧
    (mca_rtc_read_alarm (mca_rtc_set_alarm rtc b ⟨true, p, t⟩).2.1
      (mca_rtc_set_alarm rtc b ⟨true, p, t⟩).2.2 ain).1 = 0 ∧
    (mca_rtc_read_alarm (mca_rtc_set_alarm rtc b ⟨true, p, t⟩).2.1
      (mca_rtc_set_alarm rtc b ⟨true, p, t⟩).2.2 ain).2.1.time = t ∧
    (mca_rtc_read_alarm (mca_rtc_set_alarm rtc b ⟨true, p, t⟩).2.1
      (mca_rtc_set_alarm rtc b ⟨true, p, t⟩).2.2 ain).2.1.enabled = ain.enabled := by
  have hrun1 : mca_rtc_set_alarm rtc b ⟨true, p, t⟩ =
      (0, ⟨true, rtc.prepare_enabled⟩,
        ⟨updateReg MCA_RTC_CONTROL
            ((writeSeq MCA_RTC_ALARM_YEAR_L
                (dataToList (mca_tm_to_data (mca_rtc_adjust_alarm_time t false) zeroData))
                b.regs MCA_RTC_CONTROL &&& (255 ^^^ MCA_RTC_ALARM_EN)) |||
              (MCA_RTC_ALARM_EN &&& MCA_RTC_ALARM_EN))
            (writeSeq MCA_RTC_ALARM_YEAR_L
              (dataToList (mca_tm_to_data (mca_rtc_adjust_alarm_time t false) zeroData))
              b.regs),
          b.fail, b.step + 1 + 1,
          (b.trace ++ [BusOp.bulkWrite MCA_RTC_ALARM_YEAR_L
            (dataToList (mca_tm_to_data (mca_rtc_adjust_alarm_time t false) zeroData))]) ++
            [BusOp.updateBits MCA_RTC_CONTROL MCA_RTC_ALARM_EN MCA_RTC_ALARM_EN]⟩) := by
    unfold mca_rtc_set_alarm regmap_bulk_write mca_rtc_alarm_irq_enable
      mca_rtc_start_alarm regmap_update_bits busStep
    simp [hfail]
  obtain ⟨hA, hB, hC⟩ := read_alarm_components
    (mca_rtc_set_alarm rtc b ⟨true, p, t⟩).2.1
    (mca_rtc_set_alarm rtc b ⟨true, p, t⟩).2.2 ain
    (by rw [hrun1]; exact hfail)
  refine ⟨by rw [hrun1], hA, ?_, hB⟩
  rw [hC, hrun1]
  dsimp only
  cases hprep : rtc.prepare_enabled
  · rw [if_neg Bool.false_ne_true]
    rw [show MCA_RTC_ALARM_YEAR_L = 8 from rfl, show MCA_RTC_CONTROL = 0 from rfl]
    rw [readSeq7_skip _ 0 _ (Or.inl (by norm_num)), readSeq7_writeSeq_data,
      listToData_dataToList, mca_decode_encode _ henc]
    exact adjust_alarm_time_roundtrip t hv h1 h2
  · rw [if_pos rfl]
    rw [show MCA_RTC_ALARM_YEAR_L = 8 from rfl, show MCA_RTC_CONTROL = 0 from rfl,
      show MCA_RTC_PREPARE_ALARM = 16 from rfl]
    rw [readSeq7_skip _ 16 _ (Or.inr (by norm_num)),
      readSeq7_skip _ 0 _ (Or.inl (by norm_num)), readSeq7_writeSeq_data,
      listToData_dataToList, mca_decode_encode _ henc]
    exact adjust_alarm_time_roundtrip t hv h1 h2

theorem C2_read_alarm_after_set_witness :
    RtcTimeValid ⟨0, 0, 12, 1, 2, 124⟩ ∧
    1 ≤ rtc_tm_to_time64 ⟨0, 0, 12, 1, 2, 124⟩ ∧
    rtc_tm_to_time64 ⟨0, 0, 12, 1, 2, 124⟩ < 2 ^ 64 ∧
    HwEncodable (mca_rtc_adjust_alarm_time ⟨0, 0, 12, 1, 2, 124⟩ false) ∧
    (mca_rtc_read_alarm
      (mca_rtc_set_alarm ⟨false, false⟩ busOk ⟨true, false, ⟨0, 0, 12, 1, 2, 124⟩⟩).2.1
      (mca_rtc_set_alarm ⟨false, false⟩ busOk ⟨true, false, ⟨0, 0, 12, 1, 2, 124⟩⟩).2.2
      ⟨false, false, ⟨0, 0, 0, 1, 0, 70⟩⟩).2.1.time = ⟨0, 0, 12, 1, 2, 124⟩ ∧
    (mca_rtc_read_alarm
      (mca_rtc_set_alarm ⟨false, false⟩ busOk ⟨true, false, ⟨0, 0, 12, 1, 2, 124⟩⟩).2.1
      (mca_rtc_set_alarm ⟨false, false⟩ busOk ⟨true, false, ⟨0, 0, 12, 1, 2, 124⟩⟩).2.2
      ⟨false, false, ⟨0, 0, 0, 1, 0, 70⟩⟩).2.1.enabled = false :=
  ⟨by decide, by decide, by decide, by decide,
    (C2_read_alarm_after_set ⟨false, false⟩ busOk ⟨false, false, ⟨0, 0, 0, 1, 0, 70⟩⟩
      ⟨0, 0, 12, 1, 2, 124⟩ false (fun _ => rfl) (by decide) (by decide) (by decide)
      (by decide)).2.2.1,
    (C2_read_alarm_after_set ⟨false, false⟩ busOk ⟨false, false, ⟨0, 0, 0, 1, 0, 70⟩⟩
      ⟨0, 0, 12, 1, 2, 124⟩ false (fun _ => rfl) (by decide) (by decide) (by decide)
      (by decide)).2.2.2⟩

/-- Claim C6: for every calendar value and every initial 7-byte buffer
contents (8-bit bytes), encoding changes in each byte only the bits covered
by that byte's field mask: every bit outside the field masks keeps the value
it had before the encode. -/
theorem C6_encode_preserves_foreign_bits (t : rtc_time) (data : RtcData)
    (hL : data.yearL < 256) (hH : data.yearH < 256) (hMo : data.month < 256)
    (hD : data.day < 256) (hHr : data.hour < 256) (hMi : data.min < 256)
    (hS : data.sec < 256) (i : Nat) :
    (MCA_RTC_YEAR_L_MASK.testBit i = false →
      (mca_tm_to_data t data).yearL.testBit i = data.yearL.testBit i) ∧
    (MCA_RTC_YEAR_H_MASK.testBit i = false →
      (mca_tm_to_data t data).yearH.testBit i = data.yearH.testBit i) ∧
    (MCA_RTC_MONTH_MASK.testBit i = false →
      (mca_tm_to_data t data).month.testBit i = data.month.testBit i) ∧
    (MCA_RTC_DAY_MASK.testBit i = false →
      (mca_tm_to_data t data).day.testBit i = data.day.testBit i) ∧
    (MCA_RTC_HOUR_MASK.testBit i = false →
      (mca_tm_to_data t data).hour.testBit i = data.hour.testBit i) ∧
    (MCA_RTC_MIN_MASK.testBit i = false →
      (mca_tm_to_data t data).min.testBit i = data.min.testBit i) ∧
    (MCA_RTC_SEC_MASK.testBit i = false →
      (mca_tm_to_data t data).sec.testBit i = data.sec.testBit i) := by
  refine ⟨fun hm => ?_, fun hm => ?_, fun hm => ?_, fun hm => ?_, fun hm => ?_,
    fun hm => ?_, fun hm => ?_⟩
  · exact maskedByte_frame data.yearL _ _ hL i hm (testBit_maskedVal_false _ _ _ hm)
  · exact maskedByte_frame data.yearH _ _ hH i hm (testBit_maskedVal_false _ _ _ hm)
  · exact maskedByte_frame data.month _ _ hMo i hm (testBit_maskedVal_false _ _ _ hm)
  · exact maskedByte_frame data.day _ _ hD i hm (testBit_maskedVal_false _ _ _ hm)
  · exact maskedByte_frame data.hour _ _ hHr i hm (testBit_maskedVal_false _ _ _ hm)
  · exact maskedByte_frame data.min _ _ hMi i hm (testBit_maskedVal_false _ _ _ hm)
  · exact maskedByte_frame data.sec _ _ hS i hm (testBit_maskedVal_false _ _ _ hm)

theorem C6_encode_preserves_foreign_bits_witness :
    (245 : Nat) < 256 ∧ MCA_RTC_MONTH_MASK.testBit 7 = false ∧
    (mca_tm_to_data ⟨59, 30, 12, 15, 5, 124⟩ ⟨170, 187, 245, 225, 255, 192, 211⟩).month.testBit 7 =
      (245 : Nat).testBit 7 :=
  ⟨by decide, by decide,
    (C6_encode_preserves_foreign_bits ⟨59, 30, 12, 15, 5, 124⟩
      ⟨170, 187, 245, 225, 255, 192, 211⟩ (by decide) (by decide) (by decide) (by decide)
      (by decide) (by decide) (by decide) 7).2.2.1 (by decide)⟩
